import Mathlib

/-!
A shallow embedding of the social-media content generator.

The orchestrator component (handleGenerate, generateAllImages,
handleRegenerateImage, handleApiError) is modelled as explicit state
passing over an application-state record; the interleaving of the four
parallel per-platform image tasks is modelled by a step relation driven
by a schedule of start/completion events.  The image-service aspect-ratio
resolution and the post-card hashtag editor are modelled as the pure
functions they are in the source.

The source Platform enum has exactly three members (LINKEDIN, TWITTER,
INSTAGRAM); the expression Platform.FACEBOOK used by the orchestrator
evaluates to the undefined value at runtime, so runtime result-object
keys are modelled as Option Platform with none standing for that
undefined key.
-/

/-- Whitespace predicate of the runtime string trim (ASCII whitespace
plus the usual Unicode members). -/
def jsWhitespace (c : Char) : Bool :=
  c == ' ' || c == '\t' || c == '\n' || c == '\r' ||
    c.toNat == 11 || c.toNat == 12 || c.toNat == 160 ||
    c.toNat == 8232 || c.toNat == 8233 || c.toNat == 65279

def dropLeadingWs : List Char → List Char
  | [] => []
  | c :: cs => if jsWhitespace c then dropLeadingWs cs else c :: cs

/-- The string trim operation on a character list: drop leading and
trailing whitespace. -/
def jsTrimL (s : List Char) : List Char :=
  (dropLeadingWs ((dropLeadingWs s).reverse)).reverse

/-- Does the second list start with the first list? -/
def leadsWith : List Char → List Char → Bool
  | [], _ => true
  | _ :: _, [] => false
  | a :: as, b :: bs => a == b && leadsWith as bs

/-- Does the second list contain the first list as a contiguous run? -/
def containsSubL (needle : List Char) : List Char → Bool
  | [] => leadsWith needle []
  | b :: bs => leadsWith needle (b :: bs) || containsSubL needle bs

/-- The runtime substring-containment test used by handleApiError. -/
def strContains (hay needle : String) : Bool :=
  containsSubL needle.toList hay.toList

/-- The runtime lower-casing used by the hashtag duplicate check. -/
def jsLower (s : String) : String := String.mk (s.toList.map Char.toLower)

/-- The exported Platform enum of types.ts: exactly three members. -/
inductive Platform
  | LINKEDIN
  | TWITTER
  | INSTAGRAM
deriving DecidableEq, Repr

/-- The expression Platform.FACEBOOK occurring in the orchestrator: the
enum declares no such member, so the property access evaluates to the
undefined value, modelled as none. -/
def Platform.FACEBOOK : Option Platform := none

/-- The Tone enum of types.ts. -/
inductive Tone
  | PROFESSIONAL
  | WITTY
  | URGENT
deriving DecidableEq, Repr

/-- A runtime result-object key: either a genuine Platform value or the
undefined value produced by the Platform.FACEBOOK reference. -/
abbrev PKey := Option Platform

/-- GeneratedPost of types.ts.  The platform field is a PKey because the
entry built for Facebook stores the undefined value there. -/
structure GeneratedPost where
  text : String
  imagePrompt : String
  hashtags : Option (List String)
  platform : PKey
  imageUrl : Option String
  imageLoading : Option Bool
deriving DecidableEq, Repr

/-- The declared GenerationResult type of types.ts: exactly the three
platform keys. -/
structure GenerationResult where
  linkedin : GeneratedPost
  twitter : GeneratedPost
  instagram : GeneratedPost
deriving DecidableEq, Repr

/-- The runtime results object built by handleGenerate: it additionally
carries the Facebook draft, stored under the undefined key. -/
structure ResultsObj where
  linkedin : GeneratedPost
  twitter : GeneratedPost
  instagram : GeneratedPost
  facebookEntry : GeneratedPost
deriving DecidableEq, Repr

def ResultsObj.get (rs : ResultsObj) : PKey → GeneratedPost
  | some Platform.LINKEDIN => rs.linkedin
  | some Platform.TWITTER => rs.twitter
  | some Platform.INSTAGRAM => rs.instagram
  | none => rs.facebookEntry

def ResultsObj.set (rs : ResultsObj) (k : PKey) (g : GeneratedPost) : ResultsObj :=
  match k with
  | some Platform.LINKEDIN => { rs with linkedin := g }
  | some Platform.TWITTER => { rs with twitter := g }
  | some Platform.INSTAGRAM => { rs with instagram := g }
  | none => { rs with facebookEntry := g }

/-- The parsed response of generatePostContent (geminiService). -/
structure DraftContent where
  linkedinText : String
  linkedinImagePrompt : String
  twitterText : String
  twitterImagePrompt : String
  instagramText : String
  instagramHashtags : List String
  instagramImagePrompt : String
  facebookText : String
  facebookImagePrompt : String
deriving DecidableEq, Repr

/-- The newResults object literal built in handleGenerate: each entry is
the platform draft spread together with the platform tag; the Facebook
entry is stored under, and tagged with, the undefined key. -/
def mkNewResults (c : DraftContent) : ResultsObj where
  linkedin :=
    { text := c.linkedinText, imagePrompt := c.linkedinImagePrompt, hashtags := none,
      platform := some Platform.LINKEDIN, imageUrl := none, imageLoading := none }
  twitter :=
    { text := c.twitterText, imagePrompt := c.twitterImagePrompt, hashtags := none,
      platform := some Platform.TWITTER, imageUrl := none, imageLoading := none }
  instagram :=
    { text := c.instagramText, imagePrompt := c.instagramImagePrompt,
      hashtags := some c.instagramHashtags,
      platform := some Platform.INSTAGRAM, imageUrl := none, imageLoading := none }
  facebookEntry :=
    { text := c.facebookText, imagePrompt := c.facebookImagePrompt, hashtags := none,
      platform := Platform.FACEBOOK, imageUrl := none, imageLoading := none }

/-- An arbitrary runtime error value, as seen by handleApiError: a plain
string, a structured error object (message plus an optional response
payload whose serialization may itself fail), or any other value whose
serialization may fail. -/
inductive ErrVal
  | str (s : String)
  | errObj (message : String) (response : Option (Option String))
  | other (json : Option String)
deriving DecidableEq, Repr

/-- The error-message extraction of handleApiError: a string is used
as-is; an error object contributes its message, plus a space and the
serialized response when a response is present and serializes; any other
value is serialized, falling back to a fixed string. -/
def normalizeError : ErrVal → String
  | ErrVal.str s => s
  | ErrVal.errObj m none => m
  | ErrVal.errObj m (some none) => m
  | ErrVal.errObj m (some (some j)) => m ++ " " ++ j
  | ErrVal.other (some j) => j
  | ErrVal.other none => "Unknown error"

/-- The permission/billing classification of handleApiError. -/
def isPermissionError (e : ErrVal) : Bool :=
  strContains (normalizeError e) "403" ||
    strContains (normalizeError e) "PERMISSION_DENIED" ||
    strContains (normalizeError e) "The caller does not have permission" ||
    strContains (normalizeError e) "Requested entity was not found"

/-- The environment of the re-authorization flow: whether the aistudio
host object is present and whether re-running key selection succeeds. -/
structure AuthEnv where
  aistudioPresent : Bool
  reselectSucceeds : Bool
deriving DecidableEq, Repr

/-- The orchestrator-owned application state: the key flag, the text
loading flag, the current results object, and the permission-error ref. -/
structure AppState where
  hasKey : Bool
  isGeneratingText : Bool
  results : Option ResultsObj
  permissionErrorRef : Bool
deriving DecidableEq, Repr

/-- handleApiError as a state transformer.  On a permission error with
the ref not yet set, the ref is set and the key flag cleared; if the
aistudio host is present, key re-selection is attempted, and on success
the key flag is restored and the ref cleared again. -/
def handleApiError (env : AuthEnv) (s : AppState) (e : ErrVal) : AppState :=
  if isPermissionError e then
    if s.permissionErrorRef then s
    else
      let s1 : AppState := { s with permissionErrorRef := true, hasKey := false }
      if env.aistudioPresent then
        if env.reselectSucceeds then { s1 with hasKey := true, permissionErrorRef := false }
        else s1
      else s1
  else s

/-- A functional setResults update of a single entry, guarded by the
prev-null check that every updater in the source performs. -/
def updateResultAt (s : AppState) (k : PKey) (f : GeneratedPost → GeneratedPost) : AppState :=
  match s.results with
  | none => s
  | some rs => { s with results := some (rs.set k (f (rs.get k))) }

def markLoadingFalse (g : GeneratedPost) : GeneratedPost := { g with imageLoading := some false }

def markLoadingTrue (g : GeneratedPost) : GeneratedPost := { g with imageLoading := some true }

/-- The success completion handler of an image task: store the returned
url and clear the loading flag of that entry. -/
def imageSuccessUpdate (s : AppState) (k : PKey) (url : String) : AppState :=
  updateResultAt s k (fun g => { g with imageUrl := some url, imageLoading := some false })

/-- The all-loading update at the head of generateAllImages: the four
keys iterated are the three platform values and the undefined key, so
every entry gets its loading flag set in the one update. -/
def loadAllRs (rs : ResultsObj) : ResultsObj :=
  { linkedin := markLoadingTrue rs.linkedin, twitter := markLoadingTrue rs.twitter,
    instagram := markLoadingTrue rs.instagram, facebookEntry := markLoadingTrue rs.facebookEntry }

def setAllLoading (s : AppState) : AppState :=
  match s.results with
  | none => s
  | some rs => { s with results := some (loadAllRs rs) }

/-- The entry stored under a key of the current results, when any. -/
def entryAt (s : AppState) (k : PKey) : Option GeneratedPost :=
  s.results.map (fun rs => rs.get k)

/-- Outcome of the text-generation request. -/
inductive TextOutcome
  | success (c : DraftContent)
  | failure (e : ErrVal)
deriving DecidableEq, Repr

/-- Network requests issued directly by handleGenerate. -/
inductive CallEv
  | textCall (idea : String) (tone : Tone)
deriving DecidableEq, Repr

/-- The result of running handleGenerate up to the point where the image
batch is launched: the state reached, the requests issued, and the
results object handed to generateAllImages (none when no batch starts). -/
structure GenPhase1Out where
  state : AppState
  calls : List CallEv
  launchedBatch : Option ResultsObj
deriving DecidableEq, Repr

/-- handleGenerate: return immediately when the trimmed idea is empty;
otherwise set the text-loading flag, clear the results and the
permission ref, issue the text request, and on success install the new
results object and hand it to the image batch; on failure run the error
handler.  The text-loading flag is cleared on either path. -/
def handleGenerate (env : AuthEnv) (s : AppState) (idea : String) (tone : Tone)
    (outcome : TextOutcome) : GenPhase1Out :=
  if jsTrimL idea.toList = [] then { state := s, calls := [], launchedBatch := none }
  else
    let s1 : AppState :=
      { s with isGeneratingText := true, results := none, permissionErrorRef := false }
    match outcome with
    | TextOutcome.success c =>
        let nr := mkNewResults c
        { state := { s1 with results := some nr, isGeneratingText := false },
          calls := [CallEv.textCall idea tone], launchedBatch := some nr }
    | TextOutcome.failure e =>
        { state := { handleApiError env s1 e with isGeneratingText := false },
          calls := [CallEv.textCall idea tone], launchedBatch := none }

/-- The phase of one per-platform image task. -/
inductive TaskPhase
  | notStarted
  | inFlight
  | done
deriving DecidableEq, Repr

/-- One task phase per runtime key. -/
structure PhaseMap where
  linkedin : TaskPhase
  twitter : TaskPhase
  instagram : TaskPhase
  facebookEntry : TaskPhase
deriving DecidableEq, Repr

def PhaseMap.get (m : PhaseMap) : PKey → TaskPhase
  | some Platform.LINKEDIN => m.linkedin
  | some Platform.TWITTER => m.twitter
  | some Platform.INSTAGRAM => m.instagram
  | none => m.facebookEntry

def PhaseMap.set (m : PhaseMap) (k : PKey) (v : TaskPhase) : PhaseMap :=
  match k with
  | some Platform.LINKEDIN => { m with linkedin := v }
  | some Platform.TWITTER => { m with twitter := v }
  | some Platform.INSTAGRAM => { m with instagram := v }
  | none => { m with facebookEntry := v }

/-- Outcome of one image request: the data url on success, or the thrown
error value. -/
inductive ImgOutcome
  | success (url : String)
  | failure (e : ErrVal)
deriving DecidableEq, Repr

/-- One image-request outcome per runtime key. -/
structure OutcomeMap where
  linkedin : ImgOutcome
  twitter : ImgOutcome
  instagram : ImgOutcome
  facebookEntry : ImgOutcome
deriving DecidableEq, Repr

def OutcomeMap.get (m : OutcomeMap) : PKey → ImgOutcome
  | some Platform.LINKEDIN => m.linkedin
  | some Platform.TWITTER => m.twitter
  | some Platform.INSTAGRAM => m.instagram
  | none => m.facebookEntry

/-- Schedule events of the image batch: a task reaching its flag check
and either skipping or issuing its request, and a completion handler
running. -/
inductive BEvent
  | start (p : PKey)
  | complete (p : PKey)
deriving DecidableEq, Repr

/-- The state of a running image batch: the application state, the task
phases, and the list of keys whose network request was issued. -/
structure BatchState where
  app : AppState
  phases : PhaseMap
  called : List PKey
deriving DecidableEq, Repr

/-- One scheduling step of generateAllImages.  At a start event a
not-yet-started task checks the permission ref: if set it only clears
its own loading flag and finishes without a request; otherwise it issues
its request.  At a completion event an in-flight task stores its url and
clears its loading flag on success; on failure it runs the error handler
unless the ref is already set, then clears its loading flag.  Events
that do not match the task phase are no-ops. -/
def batchStep (env : AuthEnv) (oc : OutcomeMap) (s : BatchState) : BEvent → BatchState
  | BEvent.start p =>
    match s.phases.get p with
    | TaskPhase.notStarted =>
        if s.app.permissionErrorRef then
          { s with app := updateResultAt s.app p markLoadingFalse,
                   phases := s.phases.set p TaskPhase.done }
        else
          { s with phases := s.phases.set p TaskPhase.inFlight, called := s.called ++ [p] }
    | TaskPhase.inFlight => s
    | TaskPhase.done => s
  | BEvent.complete p =>
    match s.phases.get p with
    | TaskPhase.inFlight =>
        match oc.get p with
        | ImgOutcome.success u =>
            { s with app := imageSuccessUpdate s.app p u,
                     phases := s.phases.set p TaskPhase.done }
        | ImgOutcome.failure e =>
            { s with
              app := updateResultAt
                (if s.app.permissionErrorRef then s.app else handleApiError env s.app e)
                p markLoadingFalse,
              phases := s.phases.set p TaskPhase.done }
    | TaskPhase.notStarted => s
    | TaskPhase.done => s

def runBatch (env : AuthEnv) (oc : OutcomeMap) (s : BatchState) (evs : List BEvent) : BatchState :=
  evs.foldl (batchStep env oc) s

/-- The batch state right after generateAllImages performed its
all-loading update and before any task ran. -/
def initBatch (s : AppState) : BatchState :=
  { app := setAllLoading s,
    phases := { linkedin := TaskPhase.notStarted, twitter := TaskPhase.notStarted,
                instagram := TaskPhase.notStarted, facebookEntry := TaskPhase.notStarted },
    called := [] }

/-- The fan-in of the batch: the awaited promise of generateAllImages is
settled exactly when every per-key task is done. -/
def batchSettled (s : BatchState) : Bool :=
  s.phases.linkedin == TaskPhase.done && s.phases.twitter == TaskPhase.done &&
    s.phases.instagram == TaskPhase.done && s.phases.facebookEntry == TaskPhase.done

def bEntry (s : BatchState) (k : PKey) : Option GeneratedPost := entryAt s.app k

/-- handleRegenerateImage: a no-op without live results; otherwise clear
the permission ref, mark the entry loading, and apply the success or
failure completion of the single re-issued request. -/
def handleRegenerateImage (env : AuthEnv) (s : AppState) (p : PKey) (oc : ImgOutcome) : AppState :=
  match s.results with
  | none => s
  | some _ =>
      let s0 : AppState := { s with permissionErrorRef := false }
      let s1 := updateResultAt s0 p markLoadingTrue
      match oc with
      | ImgOutcome.success url => imageSuccessUpdate s1 p url
      | ImgOutcome.failure e => updateResultAt (handleApiError env s1 e) p markLoadingFalse

/-- Does the tag text start with the hash character? -/
def startsWithHashL : List Char → Bool
  | [] => false
  | c :: _ => c == '#'

/-- addHashtag of the post card: ignore whitespace-only input, trim,
prefix a hash when missing, and append unless a case-insensitive
duplicate is already present. -/
def addHashtag (tags : List String) (input : String) : List String :=
  if jsTrimL input.toList = [] then tags
  else
    let t := String.mk (jsTrimL input.toList)
    let tag := if startsWithHashL t.toList then t else "#" ++ t
    if tags.any (fun x => jsLower x == jsLower tag) then tags
    else tags ++ [tag]

/-- Pair each element with its index, starting at the given index. -/
def enumIdx : Nat → List String → List (Nat × String)
  | _, [] => []
  | n, a :: l => (n, a) :: enumIdx (n + 1) l

/-- removeHashtag of the post card: keep every element whose index
differs from the removed one. -/
def removeHashtag (tags : List String) (i : Nat) : List String :=
  ((enumIdx 0 tags).filter (fun p => p.1 != i)).map Prod.snd

/-- The automatic-aspect resolution of generateImageForPlatform: the
switch on the platform argument.  The Facebook case label is the
undefined value, so the undefined key selects it; the switch default is
unreachable for the values the app passes. -/
def resolveAutoAspect : PKey → String
  | some Platform.LINKEDIN => "16:9"
  | some Platform.TWITTER => "16:9"
  | some Platform.INSTAGRAM => "1:1"
  | none => "4:3"

/-- The safeRatioMap lookup of generateImageForPlatform, including its
or-else default for keys outside the table. -/
def safeRatioMap (r : String) : String :=
  if r = "1:1" then "1:1"
  else if r = "3:4" then "3:4"
  else if r = "4:3" then "4:3"
  else if r = "9:16" then "9:16"
  else if r = "16:9" then "16:9"
  else if r = "2:3" then "3:4"
  else if r = "3:2" then "4:3"
  else if r = "21:9" then "16:9"
  else "1:1"

/-- The effective aspect ratio sent to the image model: resolve the
automatic setting first, then apply the safety mapping. -/
def effectiveAspect (cfg : String) (platform : PKey) : String :=
  safeRatioMap (if cfg = "AUTO" then resolveAutoAspect platform else cfg)

/-! ### Basic facts about the state-update helpers -/

lemma resultsObj_get_set_self (rs : ResultsObj) (k : PKey) (g : GeneratedPost) :
    (rs.set k g).get k = g := by
  rcases k with _ | p
  · rfl
  · cases p <;> rfl

lemma resultsObj_get_set_ne (rs : ResultsObj) (k q : PKey) (g : GeneratedPost) (h : q ≠ k) :
    (rs.set k g).get q = rs.get q := by
  rcases k with _ | p <;> rcases q with _ | r
  · exact absurd rfl h
  · cases r <;> rfl
  · cases p <;> rfl
  · cases p <;> cases r <;> first | rfl | exact absurd rfl h

lemma ResultsObj.set_get_self (rs : ResultsObj) (k : PKey) :
    rs.set k (rs.get k) = rs := by
  rcases k with _ | p
  · rfl
  · cases p <;> rfl

lemma phaseMap_get_set_self (m : PhaseMap) (k : PKey) (v : TaskPhase) :
    (m.set k v).get k = v := by
  rcases k with _ | p
  · rfl
  · cases p <;> rfl

lemma phaseMap_get_set_ne (m : PhaseMap) (k q : PKey) (v : TaskPhase) (h : q ≠ k) :
    (m.set k v).get q = m.get q := by
  rcases k with _ | p <;> rcases q with _ | r
  · exact absurd rfl h
  · cases r <;> rfl
  · cases p <;> rfl
  · cases p <;> cases r <;> first | rfl | exact absurd rfl h

lemma handleApiError_results (env : AuthEnv) (s : AppState) (e : ErrVal) :
    (handleApiError env s e).results = s.results := by
  unfold handleApiError
  split_ifs <;> rfl

lemma handleApiError_nonfatal (env : AuthEnv) (s : AppState) (e : ErrVal)
    (h : isPermissionError e = false) : handleApiError env s e = s := by
  simp [handleApiError, h]

lemma updateResultAt_results (s : AppState) (k : PKey) (f : GeneratedPost → GeneratedPost) :
    (updateResultAt s k f).results = s.results.map (fun rs => rs.set k (f (rs.get k))) := by
  cases h : s.results <;> simp [updateResultAt, h]

lemma updateResultAt_hasKey (s : AppState) (k : PKey) (f : GeneratedPost → GeneratedPost) :
    (updateResultAt s k f).hasKey = s.hasKey := by
  cases h : s.results <;> simp [updateResultAt, h]

lemma updateResultAt_isGeneratingText (s : AppState) (k : PKey)
    (f : GeneratedPost → GeneratedPost) :
    (updateResultAt s k f).isGeneratingText = s.isGeneratingText := by
  cases h : s.results <;> simp [updateResultAt, h]

lemma updateResultAt_permissionErrorRef (s : AppState) (k : PKey)
    (f : GeneratedPost → GeneratedPost) :
    (updateResultAt s k f).permissionErrorRef = s.permissionErrorRef := by
  cases h : s.results <;> simp [updateResultAt, h]

lemma entryAt_updateResultAt_self (s : AppState) (k : PKey) (f : GeneratedPost → GeneratedPost) :
    entryAt (updateResultAt s k f) k = (entryAt s k).map f := by
  cases h : s.results <;> simp [updateResultAt, entryAt, h, resultsObj_get_set_self]

lemma entryAt_updateResultAt_ne (s : AppState) (k q : PKey) (f : GeneratedPost → GeneratedPost)
    (hq : q ≠ k) : entryAt (updateResultAt s k f) q = entryAt s q := by
  cases h : s.results <;> simp [updateResultAt, entryAt, h, resultsObj_get_set_ne _ _ _ _ hq]

lemma entryAt_handleApiError (env : AuthEnv) (s : AppState) (e : ErrVal) (k : PKey) :
    entryAt (handleApiError env s e) k = entryAt s k := by
  simp [entryAt, handleApiError_results]

/-! ### Trim lemmas -/

lemma dropLeadingWs_all (l : List Char) (h : ∀ c ∈ l, jsWhitespace c = true) :
    dropLeadingWs l = [] := by
  induction l with
  | nil => rfl
  | cons c cs ih =>
      simp only [dropLeadingWs, h c (List.mem_cons_self c cs), if_true]
      exact ih (fun x hx => h x (List.mem_cons_of_mem c hx))

lemma jsTrimL_all (l : List Char) (h : ∀ c ∈ l, jsWhitespace c = true) :
    jsTrimL l = [] := by
  have h1 : dropLeadingWs l = [] := dropLeadingWs_all l h
  unfold jsTrimL
  rw [h1]
  rfl

/-! ### Sample data used by concrete witnesses -/

def sampleDraft : DraftContent :=
  { linkedinText := "lt", linkedinImagePrompt := "lp",
    twitterText := "tt", twitterImagePrompt := "tp",
    instagramText := "it", instagramHashtags := ["#x"], instagramImagePrompt := "ip",
    facebookText := "ft", facebookImagePrompt := "fp" }

/-! ### Claim theorems -/

/-- Claim C2: an error value is classified fatal-authorization exactly
when its normalized display string contains one of the four markers,
where normalization uses the string itself, the message of an error
object plus a best-effort serialization of any nested response, a
best-effort serialization of any other value, and the fixed fallback
string when serialization fails. -/
theorem c2_error_classification :
    (∀ e : ErrVal, isPermissionError e = true ↔
      (strContains (normalizeError e) "403" = true ∨
        strContains (normalizeError e) "PERMISSION_DENIED" = true ∨
        strContains (normalizeError e) "The caller does not have permission" = true ∨
        strContains (normalizeError e) "Requested entity was not found" = true)) ∧
    (∀ s, normalizeError (ErrVal.str s) = s) ∧
    (∀ m, normalizeError (ErrVal.errObj m none) = m) ∧
    (∀ m, normalizeError (ErrVal.errObj m (some none)) = m) ∧
    (∀ m j, normalizeError (ErrVal.errObj m (some (some j))) = m ++ " " ++ j) ∧
    (∀ j, normalizeError (ErrVal.other (some j)) = j) ∧
    normalizeError (ErrVal.other none) = "Unknown error" := by
  refine ⟨fun e => ?_, fun s => rfl, fun m => rfl, fun m => rfl, fun m j => rfl,
    fun j => rfl, rfl⟩
  simp [isPermissionError, Bool.or_eq_true, or_assoc]

/-- Claim C10: the Platform enum has exactly the three members LINKEDIN,
TWITTER and INSTAGRAM; the GenerationResult type has exactly those three
platform keys; the Platform.FACEBOOK reference evaluates to the
undefined value, and the Facebook draft is stored under that undefined
key in the runtime results object. -/
theorem c10_platform_enum :
    (∀ p : Platform, p = Platform.LINKEDIN ∨ p = Platform.TWITTER ∨ p = Platform.INSTAGRAM) ∧
    Platform.FACEBOOK = none ∧
    (∀ r : GenerationResult, r = ⟨r.linkedin, r.twitter, r.instagram⟩) ∧
    (∀ c : DraftContent, (mkNewResults c).get Platform.FACEBOOK =
      { text := c.facebookText, imagePrompt := c.facebookImagePrompt, hashtags := none,
        platform := none, imageUrl := none, imageLoading := none }) := by
  refine ⟨fun p => ?_, rfl, fun r => rfl, fun c => rfl⟩
  cases p
  · exact Or.inl rfl
  · exact Or.inr (Or.inl rfl)
  · exact Or.inr (Or.inr rfl)

/-- Claim C4: the effective aspect ratio resolves the automatic setting
to the platform default (LinkedIn and Twitter 16:9, Instagram 1:1, the
Facebook key 4:3) and then applies the fixed safety mapping: 2:3 to 3:4,
3:2 to 4:3, 21:9 to 16:9, members of the supported set pass through
unchanged, and any other value maps to 1:1. -/
theorem c4_aspect_mapping :
    (effectiveAspect "AUTO" (some Platform.LINKEDIN) = "16:9" ∧
      effectiveAspect "AUTO" (some Platform.TWITTER) = "16:9" ∧
      effectiveAspect "AUTO" (some Platform.INSTAGRAM) = "1:1" ∧
      effectiveAspect "AUTO" Platform.FACEBOOK = "4:3") ∧
    (∀ p : PKey, effectiveAspect "2:3" p = "3:4" ∧ effectiveAspect "3:2" p = "4:3" ∧
      effectiveAspect "21:9" p = "16:9") ∧
    (∀ p : PKey, ∀ r ∈ (["1:1", "3:4", "4:3", "9:16", "16:9"] : List String),
      effectiveAspect r p = r) ∧
    (∀ (p : PKey) (r : String), r ≠ "AUTO" →
      r ∉ (["1:1", "3:4", "4:3", "9:16", "16:9", "2:3", "3:2", "21:9"] : List String) →
      effectiveAspect r p = "1:1") := by
  refine ⟨by decide, fun p => ?_, fun p r hr => ?_, fun p r hA hmem => ?_⟩
  · rcases p with _ | q
    · decide
    · cases q <;> decide
  · rcases p with _ | q
    · fin_cases hr <;> decide
    · cases q <;> (fin_cases hr <;> decide)
  · simp only [List.mem_cons, List.not_mem_nil, or_false, not_or] at hmem
    obtain ⟨h1, h2, h3, h4, h5, h6, h7, h8⟩ := hmem
    simp [effectiveAspect, safeRatioMap, hA, h1, h2, h3, h4, h5, h6, h7, h8]

/-- Witness for C4 at concrete inputs. -/
theorem c4_aspect_mapping_witness :
    effectiveAspect "2:3" (some Platform.TWITTER) = "3:4" ∧
    effectiveAspect "16:9" (some Platform.INSTAGRAM) = "16:9" ∧
    effectiveAspect "7:5" Platform.FACEBOOK = "1:1" :=
  ⟨(c4_aspect_mapping.2.1 (some Platform.TWITTER)).1,
    c4_aspect_mapping.2.2.1 (some Platform.INSTAGRAM) "16:9" (by decide),
    c4_aspect_mapping.2.2.2 Platform.FACEBOOK "7:5" (by decide) (by decide)⟩

/-- Claim C5: for an idea that is empty or whitespace only, handleGenerate
returns before touching any state field and before issuing any request:
the state is unchanged, no call is made, and no image batch starts. -/
theorem c5_whitespace_noop (env : AuthEnv) (s : AppState) (idea : String) (tone : Tone)
    (outcome : TextOutcome) (h : ∀ c ∈ idea.toList, jsWhitespace c = true) :
    handleGenerate env s idea tone outcome =
      { state := s, calls := [], launchedBatch := none } := by
  have ht : jsTrimL idea.toList = [] := jsTrimL_all _ h
  unfold handleGenerate
  rw [if_pos ht]

/-- Witness for C5 on a whitespace-only idea. -/
theorem c5_whitespace_noop_witness :
    (∀ c ∈ "  ".toList, jsWhitespace c = true) ∧
    handleGenerate ⟨true, true⟩ ⟨true, false, none, false⟩ "  " Tone.PROFESSIONAL
        (TextOutcome.failure (ErrVal.other none)) =
      { state := ⟨true, false, none, false⟩, calls := [], launchedBatch := none } :=
  ⟨by decide, c5_whitespace_noop ⟨true, true⟩ ⟨true, false, none, false⟩ "  "
    Tone.PROFESSIONAL (TextOutcome.failure (ErrVal.other none)) (by decide)⟩

/-- The application state of a fresh generation cycle: a newer text
generation has installed its results object and the image batch has
marked every entry loading, with the batch requests still in flight. -/
def cycle2State : AppState :=
  { hasKey := true, isGeneratingText := false,
    results := some (loadAllRs (mkNewResults sampleDraft)), permissionErrorRef := false }

/-- Claim C1 refutation: imageSuccessUpdate is the success completion
handler that an image task from a superseded generation cycle runs
against the current state; its only guard is the null check, so applied
after a newer cycle installed a fresh results object it writes the stale
url into the new cycle's entry and clears that entry's loading flag.
The new cycle's ResultSet is therefore mutated by a stale completion,
contradicting the claimed invariant. -/
theorem c1_stale_completion_corrupts :
    imageSuccessUpdate cycle2State (some Platform.LINKEDIN) "data:stale" ≠ cycle2State ∧
    entryAt (imageSuccessUpdate cycle2State (some Platform.LINKEDIN) "data:stale")
        (some Platform.LINKEDIN) =
      some { text := "lt", imagePrompt := "lp", hashtags := none,
             platform := some Platform.LINKEDIN,
             imageUrl := some "data:stale", imageLoading := some false } := by
  constructor
  · decide
  · decide

/-- Claim C6: after a successful text generation the installed results
object has exactly one entry per runtime key (the three platforms plus
the undefined Facebook key), and at the start of the image batch — the
single all-loading update, performed before any request is issued — every
entry's loading flag is true and every entry is keyed by its own
platform tag. -/
theorem c6_all_loading_before_calls (env : AuthEnv) (s : AppState) (idea : String)
    (tone : Tone) (c : DraftContent) (h : jsTrimL idea.toList ≠ []) :
    (handleGenerate env s idea tone (TextOutcome.success c)).launchedBatch =
      some (mkNewResults c) ∧
    (handleGenerate env s idea tone (TextOutcome.success c)).state.results =
      some (mkNewResults c) ∧
    (initBatch (handleGenerate env s idea tone (TextOutcome.success c)).state).called = [] ∧
    (initBatch (handleGenerate env s idea tone (TextOutcome.success c)).state).app.results =
      some (loadAllRs (mkNewResults c)) ∧
    (∀ k : PKey, ((loadAllRs (mkNewResults c)).get k).imageLoading = some true) ∧
    (∀ k : PKey, ((loadAllRs (mkNewResults c)).get k).platform = k) := by
  unfold handleGenerate
  rw [if_neg h]
  refine ⟨rfl, rfl, rfl, rfl, fun k => ?_, fun k => ?_⟩
  · rcases k with _ | q
    · rfl
    · cases q <;> rfl
  · rcases k with _ | q
    · rfl
    · cases q <;> rfl

/-- Witness for C6 at a concrete idea and draft. -/
theorem c6_all_loading_before_calls_witness :
    jsTrimL "x".toList ≠ [] ∧
    (∀ k : PKey, ((loadAllRs (mkNewResults sampleDraft)).get k).imageLoading = some true) :=
  ⟨by decide,
    (c6_all_loading_before_calls ⟨true, true⟩ ⟨true, false, none, false⟩ "x" Tone.WITTY
      sampleDraft (by decide)).2.2.2.2.1⟩

/-- Claim C8: regenerating one platform's image, whether the request
succeeds or fails, leaves every other key's entry fully unchanged, and
changes at most the image url and loading flag of the requested entry:
its text, prompt, hashtags and platform tag are preserved. -/
theorem c8_regenerate_frame (env : AuthEnv) (s : AppState) (rs : ResultsObj) (p : PKey)
    (oc : ImgOutcome) (h : s.results = some rs) :
    (∀ q : PKey, q ≠ p → entryAt (handleRegenerateImage env s p oc) q = some (rs.get q)) ∧
    (entryAt (handleRegenerateImage env s p oc) p).map
        (fun g => (g.text, g.imagePrompt, g.hashtags, g.platform)) =
      some ((rs.get p).text, (rs.get p).imagePrompt, (rs.get p).hashtags,
        (rs.get p).platform) := by
  have hs0 : ({ s with permissionErrorRef := false } : AppState).results = some rs := h
  have hstep : handleRegenerateImage env s p oc =
      match oc with
      | ImgOutcome.success url =>
          imageSuccessUpdate (updateResultAt { s with permissionErrorRef := false } p
            markLoadingTrue) p url
      | ImgOutcome.failure e =>
          updateResultAt (handleApiError env (updateResultAt
            { s with permissionErrorRef := false } p markLoadingTrue) e) p markLoadingFalse := by
    unfold handleRegenerateImage
    rw [h]
  have hentry1 : entryAt (updateResultAt { s with permissionErrorRef := false } p
      markLoadingTrue) p = some (markLoadingTrue (rs.get p)) := by
    rw [entryAt_updateResultAt_self]
    simp only [entryAt]
    rw [hs0]
    rfl
  have hentry1q : ∀ q : PKey, q ≠ p →
      entryAt (updateResultAt { s with permissionErrorRef := false } p markLoadingTrue) q =
        some (rs.get q) := by
    intro q hq
    rw [entryAt_updateResultAt_ne _ _ _ _ hq]
    simp only [entryAt]
    rw [hs0]
    rfl
  cases oc with
  | success url =>
      rw [hstep]
      constructor
      · intro q hq
        unfold imageSuccessUpdate
        rw [entryAt_updateResultAt_ne _ _ _ _ hq]
        exact hentry1q q hq
      · unfold imageSuccessUpdate
        rw [entryAt_updateResultAt_self, hentry1]
        rfl
  | failure e =>
      rw [hstep]
      constructor
      · intro q hq
        rw [entryAt_updateResultAt_ne _ _ _ _ hq, entryAt_handleApiError]
        exact hentry1q q hq
      · rw [entryAt_updateResultAt_self, entryAt_handleApiError, hentry1]
        rfl

/-- Witness for C8 on a concrete state and a failing regeneration. -/
theorem c8_regenerate_frame_witness :
    entryAt (handleRegenerateImage ⟨false, false⟩ cycle2State (some Platform.TWITTER)
        (ImgOutcome.failure (ErrVal.str "oops"))) (some Platform.INSTAGRAM) =
      some ((loadAllRs (mkNewResults sampleDraft)).get (some Platform.INSTAGRAM)) :=
  (c8_regenerate_frame ⟨false, false⟩ cycle2State (loadAllRs (mkNewResults sampleDraft))
    (some Platform.TWITTER) (ImgOutcome.failure (ErrVal.str "oops")) rfl).1
    (some Platform.INSTAGRAM) (by decide)

/-! ### Hashtag-editing lemmas -/

lemma mapSnd_enumIdx (l : List String) : ∀ n : Nat, (enumIdx n l).map Prod.snd = l := by
  induction l with
  | nil => intro n; rfl
  | cons a t ih => intro n; simp [enumIdx, ih]

lemma filter_enumIdx_keep (l : List String) : ∀ n m : Nat, m < n →
    (enumIdx n l).filter (fun p => p.1 != m) = enumIdx n l := by
  induction l with
  | nil => intro n m _; rfl
  | cons a t ih =>
      intro n m hm
      have hcond : ((n, a).1 != m) = true := by
        simp only [bne_iff_ne, ne_eq]
        omega
      simp only [enumIdx, List.filter_cons, hcond, if_true]
      rw [ih (n + 1) m (by omega)]

lemma enumIdx_filter_take_drop (l : List String) : ∀ n j : Nat,
    ((enumIdx n l).filter (fun p => p.1 != n + j)).map Prod.snd =
      l.take j ++ l.drop (j + 1) := by
  induction l with
  | nil => intro n j; simp [enumIdx]
  | cons a t ih =>
      intro n j
      rw [show enumIdx n (a :: t) = (n, a) :: enumIdx (n + 1) t from rfl, List.filter_cons]
      cases j with
      | zero =>
          rw [if_neg (by simp)]
          rw [filter_enumIdx_keep t (n + 1) (n + 0) (by omega), mapSnd_enumIdx]
          simp
      | succ j =>
          rw [if_pos (by simp only [bne_iff_ne, ne_eq]; omega)]
          rw [List.map_cons]
          have harith : (fun p : Nat × String => p.1 != n + (j + 1)) =
              (fun p : Nat × String => p.1 != (n + 1) + j) := by
            funext p
            congr 1
            omega
          rw [harith, ih (n + 1) j]
          simp [List.take_succ_cons, List.drop_succ_cons]

lemma removeHashtag_take_drop (tags : List String) (i : Nat) :
    removeHashtag tags i = tags.take i ++ tags.drop (i + 1) := by
  have := enumIdx_filter_take_drop tags 0 i
  simpa [removeHashtag] using this

/-- Claim C9 counterexample: the claim says a non-empty input without a
leading hash is stored as the input prefixed with the hash; the code
trims the input first, so the input with a leading space is stored as
its trimmed form prefixed, not as the raw input prefixed. -/
theorem c9_counterexample :
    addHashtag [] " launch" = ["#launch"] ∧
    addHashtag [] " launch" ≠ ["#" ++ " launch"] := by
  constructor
  · decide
  · decide

/-- Claim C9 (amended): for an input that is non-empty after trimming
and whose trimmed form lacks a leading hash, adding appends the trimmed
form prefixed with the hash unless the list already holds a
case-insensitive duplicate of it, in which case the list is unchanged;
removing index i yields the list with exactly that element dropped and
the order of the rest preserved. -/
theorem c9_hashtag_editing (tags : List String) (input : String) (i : Nat) :
    ((jsTrimL input.toList ≠ [] ∧ startsWithHashL (jsTrimL input.toList) = false) →
      (((¬ ∃ x ∈ tags, jsLower x = jsLower ("#" ++ String.mk (jsTrimL input.toList))) →
          addHashtag tags input = tags ++ ["#" ++ String.mk (jsTrimL input.toList)]) ∧
        ((∃ x ∈ tags, jsLower x = jsLower ("#" ++ String.mk (jsTrimL input.toList))) →
          addHashtag tags input = tags))) ∧
    (i < tags.length → removeHashtag tags i = tags.take i ++ tags.drop (i + 1)) := by
  constructor
  · rintro ⟨h1, h2⟩
    have h2' : startsWithHashL (String.mk (jsTrimL input.toList)).toList = false := h2
    have e1 : addHashtag tags input =
        (if tags.any (fun x =>
            jsLower x == jsLower ("#" ++ String.mk (jsTrimL input.toList))) then tags
         else tags ++ ["#" ++ String.mk (jsTrimL input.toList)]) := by
      unfold addHashtag
      rw [if_neg h1]
      simp only [h2', Bool.false_eq_true, if_false]
    rw [e1]
    constructor
    · intro hnot
      have hany : ¬ (tags.any (fun x =>
          jsLower x == jsLower ("#" ++ String.mk (jsTrimL input.toList))) = true) := by
        simp only [List.any_eq_true, beq_iff_eq]
        exact hnot
      rw [if_neg hany]
    · intro hdup
      have hany : tags.any (fun x =>
          jsLower x == jsLower ("#" ++ String.mk (jsTrimL input.toList))) = true := by
        simp only [List.any_eq_true, beq_iff_eq]
        exact hdup
      rw [if_pos hany]
  · intro _hi
    exact removeHashtag_take_drop tags i

/-- Witness for the amended C9 on concrete lists. -/
theorem c9_hashtag_editing_witness :
    addHashtag ["#LAUNCH"] "launch" = ["#LAUNCH"] ∧
    removeHashtag ["#a", "#b", "#c"] 1 = ["#a", "#c"] := by
  have h1 := (c9_hashtag_editing ["#LAUNCH"] "launch" 0).1
  have h2 := (c9_hashtag_editing ["#a", "#b", "#c"] "z" 1).2
  refine ⟨(h1 (by decide)).2 ⟨"#LAUNCH", by decide, by decide⟩, ?_⟩
  rw [h2 (by decide)]
  rfl

/-- Claim C3: with the FatalAuthFlag set, a task that has not started
skips its network request — the issued-call list is untouched — and only
clears its own entry's loading flag, leaving every other state field as
it was; a task already in flight still completes and updates its own
entry normally (stores the url and clears loading on success, clears
loading on failure), never touching another key's entry. -/
theorem c3_fatal_short_circuit (env : AuthEnv) (oc : OutcomeMap) (s : BatchState) (p : PKey)
    (hflag : s.app.permissionErrorRef = true) :
    (s.phases.get p = TaskPhase.notStarted →
      (batchStep env oc s (BEvent.start p)).called = s.called ∧
      (batchStep env oc s (BEvent.start p)).app.results =
        s.app.results.map (fun rs => rs.set p (markLoadingFalse (rs.get p))) ∧
      (batchStep env oc s (BEvent.start p)).app.hasKey = s.app.hasKey ∧
      (batchStep env oc s (BEvent.start p)).app.permissionErrorRef = true ∧
      (batchStep env oc s (BEvent.start p)).app.isGeneratingText = s.app.isGeneratingText ∧
      (batchStep env oc s (BEvent.start p)).phases = s.phases.set p TaskPhase.done) ∧
    (s.phases.get p = TaskPhase.inFlight →
      (∀ u, oc.get p = ImgOutcome.success u →
        (batchStep env oc s (BEvent.complete p)).called = s.called ∧
        bEntry (batchStep env oc s (BEvent.complete p)) p =
          (bEntry s p).map (fun g => { g with imageUrl := some u, imageLoading := some false }) ∧
        (∀ q, q ≠ p → bEntry (batchStep env oc s (BEvent.complete p)) q = bEntry s q)) ∧
      (∀ e, oc.get p = ImgOutcome.failure e →
        (batchStep env oc s (BEvent.complete p)).called = s.called ∧
        bEntry (batchStep env oc s (BEvent.complete p)) p = (bEntry s p).map markLoadingFalse ∧
        (∀ q, q ≠ p → bEntry (batchStep env oc s (BEvent.complete p)) q = bEntry s q))) := by
  constructor
  · intro hp
    have hstep : batchStep env oc s (BEvent.start p) =
        { s with app := updateResultAt s.app p markLoadingFalse,
                 phases := s.phases.set p TaskPhase.done } := by
      simp [batchStep, hp, hflag]
    rw [hstep]
    exact ⟨rfl, updateResultAt_results _ _ _, updateResultAt_hasKey _ _ _,
      (updateResultAt_permissionErrorRef _ _ _).trans hflag,
      updateResultAt_isGeneratingText _ _ _, rfl⟩
  · intro hp
    constructor
    · intro u hu
      have hstep : batchStep env oc s (BEvent.complete p) =
          { s with app := imageSuccessUpdate s.app p u,
                   phases := s.phases.set p TaskPhase.done } := by
        simp [batchStep, hp, hu]
      rw [hstep]
      refine ⟨rfl, ?_, ?_⟩
      · exact entryAt_updateResultAt_self _ _ _
      · intro q hq
        exact entryAt_updateResultAt_ne _ _ _ _ hq
    · intro e he
      have hstep : batchStep env oc s (BEvent.complete p) =
          { s with app := updateResultAt s.app p markLoadingFalse,
                   phases := s.phases.set p TaskPhase.done } := by
        simp [batchStep, hp, he, hflag]
      rw [hstep]
      refine ⟨rfl, ?_, ?_⟩
      · exact entryAt_updateResultAt_self _ _ _
      · intro q hq
        exact entryAt_updateResultAt_ne _ _ _ _ hq

/-- A batch state used by the C3 witness: the flag is set, the LinkedIn
task has not started, the Twitter task is in flight. -/
def c3State : BatchState :=
  { app := { cycle2State with permissionErrorRef := true },
    phases := { linkedin := TaskPhase.notStarted, twitter := TaskPhase.inFlight,
                instagram := TaskPhase.inFlight, facebookEntry := TaskPhase.notStarted },
    called := [some Platform.TWITTER, some Platform.INSTAGRAM] }

/-- Outcomes used by the C3 witness. -/
def c3Outcomes : OutcomeMap :=
  { linkedin := ImgOutcome.success "u1", twitter := ImgOutcome.success "u2",
    instagram := ImgOutcome.failure (ErrVal.str "network"),
    facebookEntry := ImgOutcome.success "u4" }

/-- Witness for C3 on concrete batch states. -/
theorem c3_fatal_short_circuit_witness :
    ((batchStep ⟨true, true⟩ c3Outcomes c3State (BEvent.start (some Platform.LINKEDIN))).called =
      c3State.called ∧
     (batchStep ⟨true, true⟩ c3Outcomes c3State
        (BEvent.complete (some Platform.TWITTER))).called = c3State.called) ∧
    bEntry (batchStep ⟨true, true⟩ c3Outcomes c3State (BEvent.complete (some Platform.TWITTER)))
        (some Platform.INSTAGRAM) = bEntry c3State (some Platform.INSTAGRAM) := by
  have h := c3_fatal_short_circuit ⟨true, true⟩ c3Outcomes c3State (some Platform.LINKEDIN)
    (by decide)
  have h2 := c3_fatal_short_circuit ⟨true, true⟩ c3Outcomes c3State (some Platform.TWITTER)
    (by decide)
  have ha := (h.1 (by decide)).1
  have hb := (h2.2 (by decide)).1 "u2" (by decide)
  exact ⟨⟨ha, hb.1⟩, hb.2.2 (some Platform.INSTAGRAM) (by decide)⟩

/-! ### Characterization of a batch run without fatal errors -/

/-- The entry stored for a key during the batch, as a function of its
task phase: the loaded draft while not done, and the outcome applied to
the draft once done. -/
def entryForPhase (draft : GeneratedPost) (oc : ImgOutcome) : TaskPhase → GeneratedPost
  | TaskPhase.notStarted => markLoadingTrue draft
  | TaskPhase.inFlight => markLoadingTrue draft
  | TaskPhase.done =>
      match oc with
      | ImgOutcome.success u => { draft with imageUrl := some u, imageLoading := some false }
      | ImgOutcome.failure _ => { draft with imageLoading := some false }

/-- The whole results object during a batch without fatal errors, as a
function of the phases. -/
def rsOfPhases (c : DraftContent) (oc : OutcomeMap) (ph : PhaseMap) : ResultsObj :=
  { linkedin := entryForPhase (mkNewResults c).linkedin oc.linkedin ph.linkedin,
    twitter := entryForPhase (mkNewResults c).twitter oc.twitter ph.twitter,
    instagram := entryForPhase (mkNewResults c).instagram oc.instagram ph.instagram,
    facebookEntry :=
      entryForPhase (mkNewResults c).facebookEntry oc.facebookEntry ph.facebookEntry }

lemma rsOfPhases_get (c : DraftContent) (oc : OutcomeMap) (ph : PhaseMap) (k : PKey) :
    (rsOfPhases c oc ph).get k =
      entryForPhase ((mkNewResults c).get k) (oc.get k) (ph.get k) := by
  rcases k with _ | q
  · rfl
  · cases q <;> rfl

lemma rsOfPhases_set (c : DraftContent) (oc : OutcomeMap) (ph : PhaseMap) (k : PKey)
    (v : TaskPhase) :
    rsOfPhases c oc (ph.set k v) =
      (rsOfPhases c oc ph).set k (entryForPhase ((mkNewResults c).get k) (oc.get k) v) := by
  rcases k with _ | q
  · rfl
  · cases q <;> rfl

/-- The run invariant of a batch whose outcomes carry no fatal error:
the auxiliary state fields are untouched, the permission flag stays
clear, the results object is determined by the phases, and a key can
only be done once its own completion event occurred. -/
def NonfatalInv (c : DraftContent) (oc : OutcomeMap) (hk bg : Bool)
    (s : BatchState) (evs : List BEvent) : Prop :=
  s.app.hasKey = hk ∧ s.app.isGeneratingText = bg ∧ s.app.permissionErrorRef = false ∧
  s.app.results = some (rsOfPhases c oc s.phases) ∧
  (∀ k : PKey, s.phases.get k = TaskPhase.done → BEvent.complete k ∈ evs)

lemma nonfatalInv_step (env : AuthEnv) (c : DraftContent) (oc : OutcomeMap) (hk bg : Bool)
    (hnf : ∀ (k : PKey) (e : ErrVal), oc.get k = ImgOutcome.failure e →
      isPermissionError e = false)
    (s : BatchState) (acc : List BEvent) (ev : BEvent)
    (h : NonfatalInv c oc hk bg s acc) :
    NonfatalInv c oc hk bg (batchStep env oc s ev) (acc ++ [ev]) := by
  obtain ⟨h1, h2, h3, h4, h5⟩ := h
  have hmem : ∀ k : PKey, s.phases.get k = TaskPhase.done → BEvent.complete k ∈ acc ++ [ev] :=
    fun k hk' => List.mem_append_left _ (h5 k hk')
  have hmemP : ∀ p : PKey, ∀ k : PKey, (s.phases.set p TaskPhase.done).get k = TaskPhase.done →
      BEvent.complete k ∈ acc ++ [BEvent.complete p] := by
    intro p k hk'
    by_cases hkp : k = p
    · subst hkp
      exact List.mem_append_right _ (List.mem_singleton_self _)
    · rw [phaseMap_get_set_ne _ _ _ _ hkp] at hk'
      exact List.mem_append_left _ (h5 k hk')
  cases ev with
  | start p =>
      cases hp : s.phases.get p with
      | notStarted =>
          have hstep : batchStep env oc s (BEvent.start p) =
              { s with phases := s.phases.set p TaskPhase.inFlight,
                       called := s.called ++ [p] } := by
            simp [batchStep, hp, h3]
          rw [hstep]
          refine ⟨h1, h2, h3, ?_, ?_⟩
          · show s.app.results = some (rsOfPhases c oc (s.phases.set p TaskPhase.inFlight))
            have hentry : entryForPhase ((mkNewResults c).get p) (oc.get p) TaskPhase.inFlight =
                (rsOfPhases c oc s.phases).get p := by
              rw [rsOfPhases_get, hp]
              rfl
            have hrs : rsOfPhases c oc (s.phases.set p TaskPhase.inFlight) =
                rsOfPhases c oc s.phases := by
              rw [rsOfPhases_set, hentry, ResultsObj.set_get_self]
            rw [hrs, h4]
          · intro k hk'
            by_cases hkp : k = p
            · subst hkp
              rw [phaseMap_get_set_self] at hk'
              cases hk'
            · rw [phaseMap_get_set_ne _ _ _ _ hkp] at hk'
              exact hmem k hk'
      | inFlight =>
          have hstep : batchStep env oc s (BEvent.start p) = s := by
            simp [batchStep, hp]
          rw [hstep]
          exact ⟨h1, h2, h3, h4, hmem⟩
      | done =>
          have hstep : batchStep env oc s (BEvent.start p) = s := by
            simp [batchStep, hp]
          rw [hstep]
          exact ⟨h1, h2, h3, h4, hmem⟩
  | complete p =>
      cases hp : s.phases.get p with
      | inFlight =>
          cases ho : oc.get p with
          | success u =>
              have hstep : batchStep env oc s (BEvent.complete p) =
                  { s with app := imageSuccessUpdate s.app p u,
                           phases := s.phases.set p TaskPhase.done } := by
                simp [batchStep, hp, ho]
              rw [hstep]
              refine ⟨(updateResultAt_hasKey _ _ _).trans h1,
                (updateResultAt_isGeneratingText _ _ _).trans h2,
                (updateResultAt_permissionErrorRef _ _ _).trans h3, ?_, hmemP p⟩
              show (updateResultAt s.app p _).results =
                some (rsOfPhases c oc (s.phases.set p TaskPhase.done))
              rw [updateResultAt_results, h4, Option.map_some', rsOfPhases_set]
              congr 1
              congr 1
              rw [rsOfPhases_get, hp, ho]
              rfl
          | failure e =>
              have happ : handleApiError env s.app e = s.app :=
                handleApiError_nonfatal env s.app e (hnf p e ho)
              have hstep : batchStep env oc s (BEvent.complete p) =
                  { s with app := updateResultAt s.app p markLoadingFalse,
                           phases := s.phases.set p TaskPhase.done } := by
                simp [batchStep, hp, ho, h3, happ]
              rw [hstep]
              refine ⟨(updateResultAt_hasKey _ _ _).trans h1,
                (updateResultAt_isGeneratingText _ _ _).trans h2,
                (updateResultAt_permissionErrorRef _ _ _).trans h3, ?_, hmemP p⟩
              show (updateResultAt s.app p _).results =
                some (rsOfPhases c oc (s.phases.set p TaskPhase.done))
              rw [updateResultAt_results, h4, Option.map_some', rsOfPhases_set]
              congr 1
              congr 1
              rw [rsOfPhases_get, hp, ho]
              rfl
      | notStarted =>
          have hstep : batchStep env oc s (BEvent.complete p) = s := by
            simp [batchStep, hp]
          rw [hstep]
          exact ⟨h1, h2, h3, h4, hmem⟩
      | done =>
          have hstep : batchStep env oc s (BEvent.complete p) = s := by
            simp [batchStep, hp]
          rw [hstep]
          exact ⟨h1, h2, h3, h4, hmem⟩

lemma nonfatalInv_run (env : AuthEnv) (c : DraftContent) (oc : OutcomeMap) (hk bg : Bool)
    (hnf : ∀ (k : PKey) (e : ErrVal), oc.get k = ImgOutcome.failure e →
      isPermissionError e = false) :
    ∀ (evs : List BEvent) (s : BatchState) (acc : List BEvent),
      NonfatalInv c oc hk bg s acc →
      NonfatalInv c oc hk bg (runBatch env oc s evs) (acc ++ evs) := by
  intro evs
  induction evs with
  | nil =>
      intro s acc h
      simpa [runBatch] using h
  | cons ev t ih =>
      intro s acc h
      have h1 := nonfatalInv_step env c oc hk bg hnf s acc ev h
      have h2 := ih (batchStep env oc s ev) (acc ++ [ev]) h1
      have : runBatch env oc s (ev :: t) = runBatch env oc (batchStep env oc s ev) t := rfl
      rw [this]
      simpa using h2

lemma nonfatalInv_init (c : DraftContent) (oc : OutcomeMap) (hk bg : Bool) :
    NonfatalInv c oc hk bg (initBatch ⟨hk, bg, some (mkNewResults c), false⟩) [] := by
  refine ⟨rfl, rfl, rfl, rfl, ?_⟩
  intro k hk'
  rcases k with _ | q
  · simp [initBatch, PhaseMap.get] at hk'
  · cases q <;> simp [initBatch, PhaseMap.get] at hk'

/-- Claim C7: in a batch started after a successful text generation with
the flag clear, where platform P's request fails with a non-fatal error
and every other key's request succeeds, a task is done only after its
own completion event ran (the awaited batch settles only after all four
tasks individually settled), and in the settled batch P's entry has its
loading flag false and no image reference — the draft for P carries none
— while every other entry holds its url with loading false. -/
theorem c7_partial_failure (env : AuthEnv) (hk bg : Bool) (c : DraftContent) (oc : OutcomeMap)
    (P : PKey) (e : ErrVal) (evs : List BEvent)
    (hP : oc.get P = ImgOutcome.failure e)
    (hnfe : isPermissionError e = false)
    (hOthers : ∀ k : PKey, k ≠ P → ∃ u, oc.get k = ImgOutcome.success u) :
    ((mkNewResults c).get P).imageUrl = none ∧
    (∀ k : PKey,
      (runBatch env oc (initBatch ⟨hk, bg, some (mkNewResults c), false⟩) evs).phases.get k =
        TaskPhase.done → BEvent.complete k ∈ evs) ∧
    (batchSettled (runBatch env oc (initBatch ⟨hk, bg, some (mkNewResults c), false⟩) evs) =
        true →
      bEntry (runBatch env oc (initBatch ⟨hk, bg, some (mkNewResults c), false⟩) evs) P =
        some { (mkNewResults c).get P with imageLoading := some false } ∧
      (∀ k : PKey, k ≠ P → ∃ u, oc.get k = ImgOutcome.success u ∧
        bEntry (runBatch env oc (initBatch ⟨hk, bg, some (mkNewResults c), false⟩) evs) k =
          some { (mkNewResults c).get k with imageUrl := some u, imageLoading := some false })) := by
  have hnf : ∀ (k : PKey) (e' : ErrVal), oc.get k = ImgOutcome.failure e' →
      isPermissionError e' = false := by
    intro k e' hke
    by_cases hkP : k = P
    · subst hkP
      rw [hP] at hke
      cases hke
      exact hnfe
    · obtain ⟨u, hu⟩ := hOthers k hkP
      rw [hu] at hke
      cases hke
  have hInv := nonfatalInv_run env c oc hk bg hnf evs
    (initBatch ⟨hk, bg, some (mkNewResults c), false⟩) [] (nonfatalInv_init c oc hk bg)
  rw [List.nil_append] at hInv
  obtain ⟨-, -, -, h4, h5⟩ := hInv
  refine ⟨?_, h5, ?_⟩
  · rcases P with _ | q
    · rfl
    · cases q <;> rfl
  · intro hsettled
    have hall : ∀ k : PKey,
        (runBatch env oc (initBatch ⟨hk, bg, some (mkNewResults c), false⟩) evs).phases.get k =
          TaskPhase.done := by
      simp only [batchSettled, Bool.and_eq_true, beq_iff_eq] at hsettled
      obtain ⟨⟨⟨hL, hT⟩, hI⟩, hF⟩ := hsettled
      intro k
      rcases k with _ | q
      · exact hF
      · cases q
        · exact hL
        · exact hT
        · exact hI
    constructor
    · simp only [bEntry, entryAt]
      rw [h4, Option.map_some', rsOfPhases_get, hall P, hP]
      rfl
    · intro k hkP
      obtain ⟨u, hu⟩ := hOthers k hkP
      refine ⟨u, hu, ?_⟩
      simp only [bEntry, entryAt]
      rw [h4, Option.map_some', rsOfPhases_get, hall k, hu]
      rfl

/-- Outcomes used by the C7 witness: Instagram fails with a non-fatal
error, every other key succeeds. -/
def c7Outcomes : OutcomeMap :=
  { linkedin := ImgOutcome.success "u1", twitter := ImgOutcome.success "u2",
    instagram := ImgOutcome.failure (ErrVal.str "boom"),
    facebookEntry := ImgOutcome.success "u4" }

/-- A complete interleaved schedule used by the C7 witness. -/
def c7Schedule : List BEvent :=
  [BEvent.start (some Platform.LINKEDIN), BEvent.start (some Platform.TWITTER),
    BEvent.start (some Platform.INSTAGRAM), BEvent.start none,
    BEvent.complete (some Platform.TWITTER), BEvent.complete none,
    BEvent.complete (some Platform.LINKEDIN), BEvent.complete (some Platform.INSTAGRAM)]

/-- Witness for C7 on a concrete schedule. -/
theorem c7_partial_failure_witness :
    bEntry (runBatch ⟨true, true⟩ c7Outcomes
        (initBatch ⟨true, false, some (mkNewResults sampleDraft), false⟩) c7Schedule)
      (some Platform.INSTAGRAM) =
      some { (mkNewResults sampleDraft).get (some Platform.INSTAGRAM) with
             imageLoading := some false } := by
  have hOthers : ∀ k : PKey, k ≠ some Platform.INSTAGRAM →
      ∃ u, c7Outcomes.get k = ImgOutcome.success u := by
    intro k hk
    rcases k with _ | q
    · exact ⟨"u4", rfl⟩
    · cases q
      · exact ⟨"u1", rfl⟩
      · exact ⟨"u2", rfl⟩
      · exact absurd rfl hk
  have h := c7_partial_failure ⟨true, true⟩ true false sampleDraft c7Outcomes
    (some Platform.INSTAGRAM) (ErrVal.str "boom") c7Schedule rfl (by decide) hOthers
  exact (h.2.2 (by decide)).1
